import Mathlib

/-!
# Vario-STM32: `VarioSentence` (sentence multiplexer with interval gate) and `EEPROMDriver`

Shallow embedding of `variometer/libraries/VarioSentence/VarioSentence.cpp` and of the
operations declared in `variometer/libraries/EEPROM/EEPROMDriver.h`.

* `millis()` is Arduino's `unsigned long millis()`; on the STM32 target an `unsigned long`
  has 32 bits.  `lastTick` is declared in the header `VarioSentence.h`; it holds values of
  `millis()` and is taken to have the same type.  Unsigned
  arithmetic is written on `Nat` with an explicit `% 2^32`.
* The macros `USE_LK8_SENTENCE` and `VARIOMETER_SENTENCE_DELAY`, the two global strategy
  objects `LK8` and `LxNav` (classes behind the interface `IVarioSentence`) and the clock
  are external to the file; they are parameters of the embedding, collected in `Env`.
* Every call of `millis()` is one reading of the clock: the machine state counts the
  readings made so far and the `k`-th reading is `clock k`, truncated to 32 bits.
-/

namespace Vario

/-! ## Machine arithmetic -/

/-- Number of values of an `unsigned long` (32 bits). -/
def ULONG_MOD : Nat := 4294967296

/-- Subtraction of two `unsigned long` values, as in `millis() - lastTick`. -/
def usub (a b : Nat) : Nat := (a % ULONG_MOD + (ULONG_MOD - b % ULONG_MOD)) % ULONG_MOD

/-- The value returned by the `k`-th call of `millis()`. -/
def millis (clock : Nat → Nat) (k : Nat) : Nat := clock k % ULONG_MOD

/-! ## Data model -/

/-- The interface `IVarioSentence`: the three virtual methods called by `VarioSentence`,
over the state `σ` of the implementing object; `F` stands for `double`. -/
structure IVarioSentence (σ F : Type) where
  begin : σ → F → F → F → F → σ
  available : σ → Int × σ
  read : σ → Int × σ

/-- The value of the pointer member `varioSentence`: the address of one of the two
global objects `LK8` and `LxNav`. -/
inductive Target where
  | LK8
  | LxNav
  deriving DecidableEq, Repr

/-- The data members of a `VarioSentence` object. -/
structure VarioSentence where
  sentenceType : Int
  varioSentence : Target
  lastTick : Nat
  deriving DecidableEq, Repr

/-- Everything the file takes from outside: the two macros, the classes of the two
global objects, and the clock behind `millis()`. -/
structure Env (α β F : Type) where
  USE_LK8_SENTENCE : Int
  VARIOMETER_SENTENCE_DELAY : Nat
  lk8Class : IVarioSentence α F
  lxNavClass : IVarioSentence β F
  clock : Nat → Nat

/-- The machine state: the `VarioSentence` object, the two global strategy objects, and
the number of calls of `millis()` made so far. -/
structure Sys (α β : Type) where
  self : VarioSentence
  LK8 : α
  LxNav : β
  ticks : Nat
  deriving DecidableEq, Repr

/-! ## The member functions of `VarioSentence` -/

/-- Constructor `VarioSentence::VarioSentence(char type)`, run with the global objects in
states `lk8`, `lxnav` after `k` earlier readings of the clock. -/
def VarioSentence.new {α β F : Type} (E : Env α β F) (type : Int) (lk8 : α) (lxnav : β)
    (k : Nat) : Sys α β :=
  { self :=
      { sentenceType := type
        varioSentence := if type = E.USE_LK8_SENTENCE then Target.LK8 else Target.LxNav
        lastTick := millis E.clock k }
    LK8 := lk8
    LxNav := lxnav
    ticks := k + 1 }

/-- Member `void VarioSentence::begin(double height, double vel, double temp, double bat)`. -/
def VarioSentence.begin {α β F : Type} (E : Env α β F) (w : Sys α β)
    (height vel temp bat : F) : Sys α β :=
  match w.self.varioSentence with
  | Target.LK8 => { w with LK8 := E.lk8Class.begin w.LK8 height vel temp bat }
  | Target.LxNav => { w with LxNav := E.lxNavClass.begin w.LxNav height vel temp bat }

/-- Member `int VarioSentence::available()`. -/
def VarioSentence.available {α β F : Type} (E : Env α β F) (w : Sys α β) : Int × Sys α β :=
  match w.self.varioSentence with
  | Target.LK8 => ((E.lk8Class.available w.LK8).1, { w with LK8 := (E.lk8Class.available w.LK8).2 })
  | Target.LxNav =>
    ((E.lxNavClass.available w.LxNav).1, { w with LxNav := (E.lxNavClass.available w.LxNav).2 })

/-- Member `int VarioSentence::read()`. -/
def VarioSentence.read {α β F : Type} (E : Env α β F) (w : Sys α β) : Int × Sys α β :=
  match w.self.varioSentence with
  | Target.LK8 => ((E.lk8Class.read w.LK8).1, { w with LK8 := (E.lk8Class.read w.LK8).2 })
  | Target.LxNav => ((E.lxNavClass.read w.LxNav).1, { w with LxNav := (E.lxNavClass.read w.LxNav).2 })

/-- Member `int VarioSentence::checkInterval()`; the result `true`/`false` of the source is
kept as a `Bool`.  The clock is read once in the condition and once more in the branch. -/
def VarioSentence.checkInterval {α β F : Type} (E : Env α β F) (w : Sys α β) :
    Bool × Sys α β :=
  if usub (millis E.clock w.ticks) w.self.lastTick > E.VARIOMETER_SENTENCE_DELAY then
    (true, { w with self := { w.self with lastTick := millis E.clock (w.ticks + 1) }
                    ticks := w.ticks + 2 })
  else
    (false, { w with ticks := w.ticks + 1 })

/-! ## Sequences of calls -/

/-- One call of a member function by the polling loop. -/
inductive Op (F : Type) where
  | begin (height vel temp bat : F)
  | available
  | read
  | checkInterval

/-- What a call returns: nothing (`begin`), an `int` (`available`, `read`), or the flag of
`checkInterval`. -/
inductive Ret where
  | void
  | int (n : Int)
  | flag (b : Bool)
  deriving DecidableEq, Repr

/-- Perform one call. -/
def step {α β F : Type} (E : Env α β F) (w : Sys α β) : Op F → Ret × Sys α β
  | Op.begin height vel temp bat => (Ret.void, VarioSentence.begin E w height vel temp bat)
  | Op.available => (Ret.int (VarioSentence.available E w).1, (VarioSentence.available E w).2)
  | Op.read => (Ret.int (VarioSentence.read E w).1, (VarioSentence.read E w).2)
  | Op.checkInterval =>
    (Ret.flag (VarioSentence.checkInterval E w).1, (VarioSentence.checkInterval E w).2)

/-- Perform a sequence of calls, in order. -/
def run {α β F : Type} (E : Env α β F) : Sys α β → List (Op F) → Sys α β
  | w, [] => w
  | w, op :: ops => run E (step E w op).2 ops

/-- The clock values compared by those calls of a sequence that returned `true`, in order
(only `checkInterval` returns a flag; the value it compares is the reading number
`w.ticks`). -/
def fired {α β F : Type} (E : Env α β F) : Sys α β → List (Op F) → List Nat
  | _, [] => []
  | w, op :: ops =>
    if (step E w op).1 = Ret.flag true then
      millis E.clock w.ticks :: fired E (step E w op).2 ops
    else
      fired E (step E w op).2 ops

/-! ## `EEPROMDriver` -/

/-- Modelled from the spec: the bus handle `TwoWire` together with a simulated device
behind it.  The file `EEPROMDriver.cpp` and the class `TwoWire` are not among the
sources (only the declarations in `EEPROMDriver.h` are); the bus "stores written bytes per
(deviceAddress, memoryAddress)": `mem d a` is the byte stored at memory address `a` of
device `d`, `dev` and `loc` are the device and the memory location addressed by the
current transaction. -/
structure TwoWire where
  mem : Nat → Nat → Nat
  dev : Nat
  loc : Nat

/-- Modelled from the spec: the bus primitive "begin-transaction-to-address", addressing
the device (`unsigned char`) and the memory location (`unsigned short`). -/
def TwoWire.beginTransmission (bus : TwoWire) (devAddr memAddr : Nat) : TwoWire :=
  { bus with dev := devAddr % 256, loc := memAddr % 65536 }

/-- Modelled from the spec: the bus primitive "write-byte": the device stores the byte
(`unsigned char`) at the addressed location, and the next byte of the transaction goes to
the next location ("contiguous addressing"). -/
def TwoWire.write (bus : TwoWire) (b : Nat) : TwoWire :=
  { bus with
    mem := fun d a => if d = bus.dev ∧ a = bus.loc then b % 256 else bus.mem d a
    loc := bus.loc + 1 }

/-- Modelled from the spec: the bus primitive "end-transaction". -/
def TwoWire.endTransmission (bus : TwoWire) : TwoWire := bus

/-- Modelled from the spec: the bus primitive "request-bytes": `n` bytes of the addressed
device, from the addressed location on. -/
def TwoWire.requestFrom (bus : TwoWire) (n : Nat) : List Nat × TwoWire :=
  ((List.range n).map (fun i => bus.mem bus.dev (bus.loc + i)), { bus with loc := bus.loc + n })

/-- Modelled from the spec: the loop transmitting the bytes of a buffer one by one. -/
def TwoWire.writeAll : TwoWire → List Nat → TwoWire
  | bus, [] => bus
  | bus, b :: bs => TwoWire.writeAll (bus.write b) bs

/-- Modelled from the spec: `EEPROMDriver::writeByte(devAddr, memAddr, data)` (declared in
`EEPROMDriver.h`, body absent): "issues a bus transaction addressing the device and memory
location, then transmits one byte". -/
def EEPROMDriver.writeByte (bus : TwoWire) (devAddr memAddr data : Nat) : TwoWire :=
  ((bus.beginTransmission devAddr memAddr).write data).endTransmission

/-- Modelled from the spec: `EEPROMDriver::writeBuffer(devAddr, memAddr, data, dataLen)`
(body absent): "same as above but transmits `length` bytes starting at `memoryAddress`";
`dataLen` is a `short`, the buffer is the list `data`. -/
def EEPROMDriver.writeBuffer (bus : TwoWire) (devAddr memAddr : Nat) (data : List Nat)
    (dataLen : Int) : TwoWire :=
  ((bus.beginTransmission devAddr memAddr).writeAll (data.take dataLen.toNat)).endTransmission

/-- Modelled from the spec: `EEPROMDriver::readByte(devAddr, memAddr)` (body absent):
"issues a bus write of the target address, then requests exactly one byte back; returns
it". -/
def EEPROMDriver.readByte (bus : TwoWire) (devAddr memAddr : Nat) : Nat × TwoWire :=
  (((bus.beginTransmission devAddr memAddr).endTransmission.requestFrom 1).1.headD 0,
   ((bus.beginTransmission devAddr memAddr).endTransmission.requestFrom 1).2)

/-- Modelled from the spec: `EEPROMDriver::readBuffer(devAddr, memAddr, buf, bufLen)` (body
absent): "same pattern, requests `length` bytes, writing them into the caller-provided
buffer"; the result is the buffer afterwards. -/
def EEPROMDriver.readBuffer (bus : TwoWire) (devAddr memAddr : Nat) (buf : List Nat)
    (bufLen : Int) : List Nat × TwoWire :=
  (((bus.beginTransmission devAddr memAddr).endTransmission.requestFrom bufLen.toNat).1
      ++ buf.drop bufLen.toNat,
   ((bus.beginTransmission devAddr memAddr).endTransmission.requestFrom bufLen.toNat).2)

/-! ## Concrete instances used to evaluate the definitions -/

/-- A strategy object that is a byte queue: `begin` loads it, `available` counts, `read`
pops or answers `-1`. -/
def queueClass (tag : Int) : IVarioSentence (List Int) Int where
  begin := fun _ height vel temp bat => [tag, height, vel, temp, bat]
  available := fun q => (q.length, q)
  read := fun q => (q.headD (-1), q.tail)

/-- The example of the spec: selector `65` (the character A) for LK8, an interval of
2000 ms, and a clock that reads 1000, 1000, 3001, 3001, 3001, ... -/
def exampleEnv : Env (List Int) (List Int) Int where
  USE_LK8_SENTENCE := 65
  VARIOMETER_SENTENCE_DELAY := 2000
  lk8Class := queueClass 1
  lxNavClass := queueClass 2
  clock := fun k => if k < 2 then 1000 else 3001

/-- A clock advancing 1500 ms between consecutive readings up to 600000 ms. -/
def rampEnv : Env (List Int) (List Int) Int :=
  { exampleEnv with clock := fun k => min (1500 * k) 600000 }

/-- A state of the example: bound to LK8, last check at 1000 ms, two readings made (the
next readings are 3001). -/
def exampleSys : Sys (List Int) (List Int) :=
  { self := { sentenceType := 65, varioSentence := Target.LK8, lastTick := 1000 }
    LK8 := [], LxNav := [], ticks := 2 }

/-- A bus whose devices hold zeros. -/
def blankBus : TwoWire := { mem := fun _ _ => 0, dev := 0, loc := 0 }

end Vario
namespace Vario

/-! ## Machine arithmetic: lemmas -/

theorem millis_lt (clock : Nat → Nat) (k : Nat) : millis clock k < ULONG_MOD := by
  unfold millis ULONG_MOD
  omega

theorem usub_of_le {a b : Nat} (hab : b ≤ a) (ha : a < ULONG_MOD) : usub a b = a - b := by
  unfold usub
  unfold ULONG_MOD at *
  omega

theorem usub_self_mod (a : Nat) : usub (a % ULONG_MOD) (a % ULONG_MOD) = 0 := by
  unfold usub ULONG_MOD
  omega

theorem usub_add_mod (t e : Nat) : usub ((t + e) % ULONG_MOD) t = e % ULONG_MOD := by
  unfold usub ULONG_MOD
  omega

/-! ## `checkInterval`: one call -/

theorem checkInterval_fst {α β F : Type} (E : Env α β F) (w : Sys α β) :
    (VarioSentence.checkInterval E w).1
      = decide (E.VARIOMETER_SENTENCE_DELAY < usub (millis E.clock w.ticks) w.self.lastTick) := by
  unfold VarioSentence.checkInterval
  by_cases h : usub (millis E.clock w.ticks) w.self.lastTick > E.VARIOMETER_SENTENCE_DELAY
  · simp [h]
  · simp [h]

theorem checkInterval_true {α β F : Type} (E : Env α β F) (w : Sys α β)
    (h : E.VARIOMETER_SENTENCE_DELAY < usub (millis E.clock w.ticks) w.self.lastTick) :
    VarioSentence.checkInterval E w
      = (true, { w with self := { w.self with lastTick := millis E.clock (w.ticks + 1) }
                        ticks := w.ticks + 2 }) := by
  unfold VarioSentence.checkInterval
  simp [h]

theorem checkInterval_false {α β F : Type} (E : Env α β F) (w : Sys α β)
    (h : ¬ E.VARIOMETER_SENTENCE_DELAY < usub (millis E.clock w.ticks) w.self.lastTick) :
    VarioSentence.checkInterval E w = (false, { w with ticks := w.ticks + 1 }) := by
  unfold VarioSentence.checkInterval
  simp [h]

/-- C1: `checkInterval()` returns true exactly when the current time minus the last-check
timestamp (the unsigned difference the code computes, which is the ordinary difference
whenever the timestamp does not exceed the reading) is strictly greater than
`VARIOMETER_SENTENCE_DELAY`; when it returns true the timestamp afterwards is the clock
value of the second reading, hence the current time when the clock holds one value during
the call; when it returns false the object is left exactly as it was. -/
theorem checkInterval_contract {α β F : Type} (E : Env α β F) (w : Sys α β) :
    ((VarioSentence.checkInterval E w).1 = true ↔
        E.VARIOMETER_SENTENCE_DELAY < usub (millis E.clock w.ticks) w.self.lastTick) ∧
    (w.self.lastTick ≤ millis E.clock w.ticks →
        ((VarioSentence.checkInterval E w).1 = true ↔
          E.VARIOMETER_SENTENCE_DELAY < millis E.clock w.ticks - w.self.lastTick)) ∧
    ((VarioSentence.checkInterval E w).1 = true →
        (VarioSentence.checkInterval E w).2.self.lastTick = millis E.clock (w.ticks + 1)) ∧
    ((VarioSentence.checkInterval E w).1 = true →
        millis E.clock (w.ticks + 1) = millis E.clock w.ticks →
        (VarioSentence.checkInterval E w).2.self.lastTick = millis E.clock w.ticks) ∧
    ((VarioSentence.checkInterval E w).1 = false →
        (VarioSentence.checkInterval E w).2.self = w.self) := by
  by_cases h : E.VARIOMETER_SENTENCE_DELAY < usub (millis E.clock w.ticks) w.self.lastTick
  · rw [checkInterval_true E w h]
    refine ⟨by simp [h], fun hle => ?_, by simp, fun _ heq => by simp [heq], by simp⟩
    rw [← usub_of_le hle (millis_lt _ _)]
    simp [h]
  · rw [checkInterval_false E w h]
    refine ⟨by simp [h], fun hle => ?_, by simp, by simp, by simp⟩
    rw [← usub_of_le hle (millis_lt _ _)]
    simp [h]

/-- C1 at the state of the example: last check at 1000 ms, clock at 3001 ms. -/
theorem checkInterval_contract_witness :
    (VarioSentence.checkInterval exampleEnv exampleSys).1 = true ∧
    2000 < 3001 - 1000 ∧
    (VarioSentence.checkInterval exampleEnv exampleSys).2.self.lastTick = 3001 :=
  ⟨by decide,
   ((checkInterval_contract exampleEnv exampleSys).2.1 (by decide)).mp (by decide),
   ((checkInterval_contract exampleEnv exampleSys).2.2.2.1 (by decide) (by decide)).trans
     (by decide)⟩

end Vario
namespace Vario

/-- C2 as stated fails: last check at 1000 ms, interval 2000 ms (at least 1), clock reading
1000 + 2000: `checkInterval()` returns false. -/
theorem checkInterval_threshold_counterexample :
    1 ≤ exampleEnv.VARIOMETER_SENTENCE_DELAY ∧
    millis { exampleEnv with clock := fun _ => 3000 }.clock exampleSys.ticks
      = exampleSys.self.lastTick + exampleEnv.VARIOMETER_SENTENCE_DELAY ∧
    (VarioSentence.checkInterval { exampleEnv with clock := fun _ => 3000 } exampleSys).1
      = false := by
  decide

/-- C2, amended: with the last check at `t` and interval `D`, a call when the clock reads
`t + (D - 1)` (for `D` at least 1) returns false, a call when the clock reads `t + D`
returns false as well, and a call when the clock reads `t + D + 1` returns true (for
`D + 1` below `2^32`); clock values are taken modulo `2^32`. -/
theorem checkInterval_threshold {α β F : Type} (E : Env α β F) (w : Sys α β) :
    (1 ≤ E.VARIOMETER_SENTENCE_DELAY →
      E.clock w.ticks = w.self.lastTick + (E.VARIOMETER_SENTENCE_DELAY - 1) →
      (VarioSentence.checkInterval E w).1 = false) ∧
    (E.clock w.ticks = w.self.lastTick + E.VARIOMETER_SENTENCE_DELAY →
      (VarioSentence.checkInterval E w).1 = false) ∧
    (E.VARIOMETER_SENTENCE_DELAY + 1 < ULONG_MOD →
      E.clock w.ticks = w.self.lastTick + E.VARIOMETER_SENTENCE_DELAY + 1 →
      (VarioSentence.checkInterval E w).1 = true) := by
  refine ⟨fun hD hc => ?_, fun hc => ?_, fun hD hc => ?_⟩
  · rw [checkInterval_fst, decide_eq_false_iff_not, millis, hc, usub_add_mod]
    unfold ULONG_MOD
    omega
  · rw [checkInterval_fst, decide_eq_false_iff_not, millis, hc, usub_add_mod]
    unfold ULONG_MOD
    omega
  · rw [checkInterval_fst, decide_eq_true_iff, millis, hc, Nat.add_assoc, usub_add_mod]
    unfold ULONG_MOD at *
    omega

/-- C2 amended, at the example: last check at 1000 ms and interval 2000 ms; the clock reads
2999, 3000 and 3001. -/
theorem checkInterval_threshold_witness :
    (VarioSentence.checkInterval { exampleEnv with clock := fun _ => 2999 } exampleSys).1
      = false ∧
    (VarioSentence.checkInterval { exampleEnv with clock := fun _ => 3000 } exampleSys).1
      = false ∧
    (VarioSentence.checkInterval { exampleEnv with clock := fun _ => 3001 } exampleSys).1
      = true :=
  ⟨(checkInterval_threshold { exampleEnv with clock := fun _ => 2999 } exampleSys).1
      (by decide) (by decide),
   (checkInterval_threshold { exampleEnv with clock := fun _ => 3000 } exampleSys).2.1
      (by decide),
   (checkInterval_threshold { exampleEnv with clock := fun _ => 3001 } exampleSys).2.2
      (by decide) (by decide)⟩

/-- C3: a call of `checkInterval()` right after construction, the clock still reading the
value read by the constructor, returns false; after a call that returned true, a call
with the clock still reading the value stored by that call returns false; and on the
example (clock 1000 at construction, interval 2000) the first call returns false, the call
at 3001 returns true and sets the timestamp to 3001, the next call at 3001 returns false. -/
theorem checkInterval_zero_elapsed {α β F : Type} (E : Env α β F) :
    (∀ (type : Int) (lk8 : α) (lxnav : β) (k : Nat),
      millis E.clock (k + 1) = millis E.clock k →
      (VarioSentence.checkInterval E (VarioSentence.new E type lk8 lxnav k)).1 = false) ∧
    (∀ w : Sys α β, (VarioSentence.checkInterval E w).1 = true →
      millis E.clock (w.ticks + 2) = millis E.clock (w.ticks + 1) →
      (VarioSentence.checkInterval E (VarioSentence.checkInterval E w).2).1 = false) ∧
    ((VarioSentence.new exampleEnv 65 [] [] 0).self.lastTick = 1000 ∧
      (VarioSentence.checkInterval exampleEnv (VarioSentence.new exampleEnv 65 [] [] 0)).1
        = false ∧
      (VarioSentence.checkInterval exampleEnv
        (VarioSentence.checkInterval exampleEnv (VarioSentence.new exampleEnv 65 [] [] 0)).2).1
        = true ∧
      (VarioSentence.checkInterval exampleEnv
        (VarioSentence.checkInterval exampleEnv
          (VarioSentence.new exampleEnv 65 [] [] 0)).2).2.self.lastTick = 3001 ∧
      (VarioSentence.checkInterval exampleEnv
        (VarioSentence.checkInterval exampleEnv
          (VarioSentence.checkInterval exampleEnv
            (VarioSentence.new exampleEnv 65 [] [] 0)).2).2).1 = false) := by
  refine ⟨fun type lk8 lxnav k hk => ?_, fun w hw hk => ?_, by decide⟩
  · rw [checkInterval_fst, decide_eq_false_iff_not]
    simp only [VarioSentence.new, hk]
    unfold millis
    rw [usub_self_mod]
    omega
  · rw [checkInterval_fst, decide_eq_true_iff] at hw
    rw [checkInterval_true E w hw, checkInterval_fst, decide_eq_false_iff_not]
    simp only [hk]
    unfold millis
    rw [usub_self_mod]
    omega

/-- C3 at the example: the clock reads 1000 at construction and at the first call; after
the call that fires at 3001 the clock still reads 3001. -/
theorem checkInterval_zero_elapsed_witness :
    (VarioSentence.checkInterval exampleEnv (VarioSentence.new exampleEnv 66 [] [] 0)).1
      = false ∧
    (VarioSentence.checkInterval exampleEnv
      (VarioSentence.checkInterval exampleEnv exampleSys).2).1 = false :=
  ⟨(checkInterval_zero_elapsed exampleEnv).1 66 [] [] 0 (by decide),
   (checkInterval_zero_elapsed exampleEnv).2.1 exampleSys (by decide) (by decide)⟩

end Vario
namespace Vario

/-- C5: the constructor binds the object to `LK8` when the selector equals
`USE_LK8_SENTENCE` and to `LxNav` for every other selector, stores the selector in
`sentenceType`, sets `lastTick` to the clock value it reads, and leaves the two global
objects as they are. -/
theorem new_binds_by_selector {α β F : Type} (E : Env α β F) (type : Int) (lk8 : α)
    (lxnav : β) (k : Nat) :
    (type = E.USE_LK8_SENTENCE →
      (VarioSentence.new E type lk8 lxnav k).self.varioSentence = Target.LK8) ∧
    (type ≠ E.USE_LK8_SENTENCE →
      (VarioSentence.new E type lk8 lxnav k).self.varioSentence = Target.LxNav) ∧
    (VarioSentence.new E type lk8 lxnav k).self.sentenceType = type ∧
    (VarioSentence.new E type lk8 lxnav k).self.lastTick = millis E.clock k ∧
    (VarioSentence.new E type lk8 lxnav k).LK8 = lk8 ∧
    (VarioSentence.new E type lk8 lxnav k).LxNav = lxnav := by
  refine ⟨fun h => ?_, fun h => ?_, rfl, rfl, rfl, rfl⟩
  · simp [VarioSentence.new, h]
  · simp [VarioSentence.new, h]

/-- C5 at the example: selector 65 binds `LK8`, selector 66 binds `LxNav`. -/
theorem new_binds_by_selector_witness :
    (VarioSentence.new exampleEnv 65 [] [] 0).self.varioSentence = Target.LK8 ∧
    (VarioSentence.new exampleEnv 66 [] [] 0).self.varioSentence = Target.LxNav :=
  ⟨(new_binds_by_selector exampleEnv 65 [] [] 0).1 (by decide),
   (new_binds_by_selector exampleEnv 66 [] [] 0).2.1 (by decide)⟩

/-- C10: with 32-bit unsigned values, for a last-check timestamp `t` and an elapsed amount
`e < 2^32`, a call of `checkInterval()` when the clock reads `(t + e) mod 2^32` returns
true if and only if `e` exceeds `VARIOMETER_SENTENCE_DELAY`, also when that reading is
numerically smaller than `t`; this holds for every value of the delay constant, in
particular for those below `2^32 - 1`. -/
theorem checkInterval_rollover {α β F : Type} (E : Env α β F) (w : Sys α β) (t e : Nat)
    (ht : w.self.lastTick = t) (he : e < ULONG_MOD)
    (hc : millis E.clock w.ticks = (t + e) % ULONG_MOD) :
    ((VarioSentence.checkInterval E w).1 = true ↔ E.VARIOMETER_SENTENCE_DELAY < e) := by
  rw [checkInterval_fst, decide_eq_true_iff, hc, ht, usub_add_mod, Nat.mod_eq_of_lt he]

/-- C10 on a wrapped clock: last check at `2^32 - 1000`, 3001 ms later the clock reads 2001,
which is smaller than the timestamp, and the call returns true. -/
theorem checkInterval_rollover_witness :
    2001 < 4294966296 ∧
    ((VarioSentence.checkInterval { exampleEnv with clock := fun _ => 2001 }
        { exampleSys with self := { exampleSys.self with lastTick := 4294966296 } }).1 = true
      ↔ exampleEnv.VARIOMETER_SENTENCE_DELAY < 3001) :=
  ⟨by decide,
   checkInterval_rollover { exampleEnv with clock := fun _ => 2001 }
     { exampleSys with self := { exampleSys.self with lastTick := 4294966296 } }
     4294966296 3001 rfl (by decide) (by decide)⟩

/-! ## Forwarding -/

theorem begin_LK8 {α β F : Type} (E : Env α β F) (w : Sys α β) (height vel temp bat : F)
    (h : w.self.varioSentence = Target.LK8) :
    VarioSentence.begin E w height vel temp bat
      = { w with LK8 := E.lk8Class.begin w.LK8 height vel temp bat } := by
  unfold VarioSentence.begin
  rw [h]

theorem begin_LxNav {α β F : Type} (E : Env α β F) (w : Sys α β) (height vel temp bat : F)
    (h : w.self.varioSentence = Target.LxNav) :
    VarioSentence.begin E w height vel temp bat
      = { w with LxNav := E.lxNavClass.begin w.LxNav height vel temp bat } := by
  unfold VarioSentence.begin
  rw [h]

theorem available_LK8 {α β F : Type} (E : Env α β F) (w : Sys α β)
    (h : w.self.varioSentence = Target.LK8) :
    VarioSentence.available E w
      = ((E.lk8Class.available w.LK8).1, { w with LK8 := (E.lk8Class.available w.LK8).2 }) := by
  unfold VarioSentence.available
  rw [h]

theorem available_LxNav {α β F : Type} (E : Env α β F) (w : Sys α β)
    (h : w.self.varioSentence = Target.LxNav) :
    VarioSentence.available E w
      = ((E.lxNavClass.available w.LxNav).1,
         { w with LxNav := (E.lxNavClass.available w.LxNav).2 }) := by
  unfold VarioSentence.available
  rw [h]

theorem read_LK8 {α β F : Type} (E : Env α β F) (w : Sys α β)
    (h : w.self.varioSentence = Target.LK8) :
    VarioSentence.read E w
      = ((E.lk8Class.read w.LK8).1, { w with LK8 := (E.lk8Class.read w.LK8).2 }) := by
  unfold VarioSentence.read
  rw [h]

theorem read_LxNav {α β F : Type} (E : Env α β F) (w : Sys α β)
    (h : w.self.varioSentence = Target.LxNav) :
    VarioSentence.read E w
      = ((E.lxNavClass.read w.LxNav).1, { w with LxNav := (E.lxNavClass.read w.LxNav).2 }) := by
  unfold VarioSentence.read
  rw [h]

/-- Only `checkInterval` changes the object itself, and only its `lastTick`. -/
theorem step_self_of_not_checkInterval {α β F : Type} (E : Env α β F) (w : Sys α β) :
    (∀ height vel temp bat : F, (step E w (Op.begin height vel temp bat)).2.self = w.self ∧
      (step E w (Op.begin height vel temp bat)).2.ticks = w.ticks) ∧
    ((step E w (Op.available : Op F)).2.self = w.self ∧
      (step E w (Op.available : Op F)).2.ticks = w.ticks) ∧
    ((step E w (Op.read : Op F)).2.self = w.self ∧
      (step E w (Op.read : Op F)).2.ticks = w.ticks) := by
  rcases h : w.self.varioSentence with _ | _
  · refine ⟨fun height vel temp bat => ?_, ?_, ?_⟩
    · simp [step, begin_LK8 E w height vel temp bat h]
    · simp [step, available_LK8 E w h]
    · simp [step, read_LK8 E w h]
  · refine ⟨fun height vel temp bat => ?_, ?_, ?_⟩
    · simp [step, begin_LxNav E w height vel temp bat h]
    · simp [step, available_LxNav E w h]
    · simp [step, read_LxNav E w h]

theorem step_self {α β F : Type} (E : Env α β F) (w : Sys α β) (op : Op F) :
    (step E w op).2.self.sentenceType = w.self.sentenceType ∧
    (step E w op).2.self.varioSentence = w.self.varioSentence := by
  cases op with
  | begin height vel temp bat =>
    rw [((step_self_of_not_checkInterval E w).1 height vel temp bat).1]
    exact ⟨rfl, rfl⟩
  | available =>
    rw [(step_self_of_not_checkInterval E w).2.1.1]
    exact ⟨rfl, rfl⟩
  | read =>
    rw [(step_self_of_not_checkInterval E w).2.2.1]
    exact ⟨rfl, rfl⟩
  | checkInterval =>
    simp only [step, VarioSentence.checkInterval]
    split <;> exact ⟨rfl, rfl⟩

theorem run_self {α β F : Type} (E : Env α β F) (w : Sys α β) (ops : List (Op F)) :
    (run E w ops).self.sentenceType = w.self.sentenceType ∧
    (run E w ops).self.varioSentence = w.self.varioSentence := by
  induction ops generalizing w with
  | nil => exact ⟨rfl, rfl⟩
  | cons op ops ih =>
    simp only [run]
    exact ⟨(ih _).1.trans (step_self E w op).1, (ih _).2.trans (step_self E w op).2⟩

/-- C7: after every sequence of `begin`, `available`, `read` and `checkInterval` calls
applied to a freshly constructed object, the selector tag and the bound strategy are the
ones set by the constructor. -/
theorem binding_fixed {α β F : Type} (E : Env α β F) (type : Int) (lk8 : α) (lxnav : β)
    (k : Nat) (ops : List (Op F)) :
    (run E (VarioSentence.new E type lk8 lxnav k) ops).self.sentenceType = type ∧
    (run E (VarioSentence.new E type lk8 lxnav k) ops).self.varioSentence
      = (VarioSentence.new E type lk8 lxnav k).self.varioSentence ∧
    (run E (VarioSentence.new E type lk8 lxnav k) ops).self.varioSentence
      = if type = E.USE_LK8_SENTENCE then Target.LK8 else Target.LxNav :=
  ⟨(run_self E _ ops).1, (run_self E _ ops).2, (run_self E _ ops).2⟩

end Vario
namespace Vario

/-! ## Sequences of calls under a non-decreasing clock -/

/-- What one call does to the timestamp and to the count of readings: either it does not
return `true`, keeps `lastTick` and makes at most one reading; or it is a `checkInterval`
that found the delay exceeded, stores the second reading and has made two readings. -/
theorem step_cases {α β F : Type} (E : Env α β F) (w : Sys α β) (op : Op F) :
    ((step E w op).1 ≠ Ret.flag true ∧ (step E w op).2.self.lastTick = w.self.lastTick ∧
      w.ticks ≤ (step E w op).2.ticks ∧ (step E w op).2.ticks ≤ w.ticks + 1) ∨
    ((step E w op).1 = Ret.flag true ∧ op = Op.checkInterval ∧
      E.VARIOMETER_SENTENCE_DELAY < usub (millis E.clock w.ticks) w.self.lastTick ∧
      (step E w op).2.self.lastTick = millis E.clock (w.ticks + 1) ∧
      (step E w op).2.ticks = w.ticks + 2) := by
  cases op with
  | begin height vel temp bat =>
    left
    have h := (step_self_of_not_checkInterval E w).1 height vel temp bat
    refine ⟨by simp [step], by rw [h.1], by rw [h.2], by rw [h.2]; omega⟩
  | available =>
    left
    have h := (step_self_of_not_checkInterval E w).2.1
    refine ⟨by simp [step], by rw [h.1], by rw [h.2], by rw [h.2]; omega⟩
  | read =>
    left
    have h := (step_self_of_not_checkInterval E w).2.2
    refine ⟨by simp [step], by rw [h.1], by rw [h.2], by rw [h.2]; omega⟩
  | checkInterval =>
    by_cases h : E.VARIOMETER_SENTENCE_DELAY < usub (millis E.clock w.ticks) w.self.lastTick
    · right
      simp [step, checkInterval_true E w h, h]
    · left
      simp [step, checkInterval_false E w h]

theorem millis_mono_le {clock : Nat → Nat} (hmono : Monotone (millis clock)) {i j : Nat}
    (hij : i ≤ j) : millis clock i ≤ millis clock j :=
  hmono hij

/-- The timestamp never exceeds the next reading of a non-decreasing clock. -/
theorem new_lastTick_le {α β F : Type} (E : Env α β F) (hmono : Monotone (millis E.clock))
    (type : Int) (lk8 : α) (lxnav : β) (k : Nat) :
    (VarioSentence.new E type lk8 lxnav k).self.lastTick
      ≤ millis E.clock (VarioSentence.new E type lk8 lxnav k).ticks :=
  millis_mono_le hmono (Nat.le_succ k)

theorem step_lastTick_le {α β F : Type} (E : Env α β F) (hmono : Monotone (millis E.clock))
    (w : Sys α β) (hw : w.self.lastTick ≤ millis E.clock w.ticks) (op : Op F) :
    (step E w op).2.self.lastTick ≤ millis E.clock (step E w op).2.ticks := by
  rcases step_cases E w op with ⟨_, h2, h3, _⟩ | ⟨_, _, _, h4, h5⟩
  · rw [h2]
    exact hw.trans (millis_mono_le hmono h3)
  · rw [h4, h5]
    exact millis_mono_le hmono (by omega)

theorem run_lastTick_le {α β F : Type} (E : Env α β F) (hmono : Monotone (millis E.clock))
    (w : Sys α β) (hw : w.self.lastTick ≤ millis E.clock w.ticks) (ops : List (Op F)) :
    (run E w ops).self.lastTick ≤ millis E.clock (run E w ops).ticks := by
  induction ops generalizing w with
  | nil => exact hw
  | cons op ops ih => exact ih _ (step_lastTick_le E hmono w hw op)

/-- C8: under a non-decreasing clock, in every state reached from construction, every
operation leaves the last-check timestamp greater than or equal to what it was; the
timestamp differs afterwards only when the operation is a `checkInterval()` that returned
true; `begin`, `available` and `read` leave it as it is. -/
theorem lastTick_monotone {α β F : Type} (E : Env α β F) (hmono : Monotone (millis E.clock))
    (type : Int) (lk8 : α) (lxnav : β) (k : Nat) (ops : List (Op F)) (op : Op F) :
    (run E (VarioSentence.new E type lk8 lxnav k) ops).self.lastTick
      ≤ (step E (run E (VarioSentence.new E type lk8 lxnav k) ops) op).2.self.lastTick ∧
    ((step E (run E (VarioSentence.new E type lk8 lxnav k) ops) op).2.self.lastTick
        ≠ (run E (VarioSentence.new E type lk8 lxnav k) ops).self.lastTick →
      op = Op.checkInterval ∧
      (step E (run E (VarioSentence.new E type lk8 lxnav k) ops) op).1 = Ret.flag true) ∧
    (∀ height vel temp bat : F,
      (VarioSentence.begin E (run E (VarioSentence.new E type lk8 lxnav k) ops)
          height vel temp bat).self.lastTick
        = (run E (VarioSentence.new E type lk8 lxnav k) ops).self.lastTick) ∧
    (VarioSentence.available E (run E (VarioSentence.new E type lk8 lxnav k) ops)).2.self.lastTick
      = (run E (VarioSentence.new E type lk8 lxnav k) ops).self.lastTick ∧
    (VarioSentence.read E (run E (VarioSentence.new E type lk8 lxnav k) ops)).2.self.lastTick
      = (run E (VarioSentence.new E type lk8 lxnav k) ops).self.lastTick := by
  have hw := run_lastTick_le E hmono _ (new_lastTick_le E hmono type lk8 lxnav k) ops
  generalize run E (VarioSentence.new E type lk8 lxnav k) ops = w at hw ⊢
  have hs := step_self_of_not_checkInterval E w
  refine ⟨?_, ?_, fun height vel temp bat => ?_, ?_, ?_⟩
  · rcases step_cases E w op with ⟨_, h2, _, _⟩ | ⟨_, _, _, h4, _⟩
    · rw [h2]
    · rw [h4]
      exact hw.trans (millis_mono_le hmono (Nat.le_succ _))
  · intro hne
    rcases step_cases E w op with ⟨_, h2, _, _⟩ | ⟨h1, h2, _, _, _⟩
    · exact absurd h2 hne
    · exact ⟨h2, h1⟩
  · have h := (hs.1 height vel temp bat).1
    simp only [step] at h
    rw [h]
  · have h := hs.2.1.1
    simp only [step] at h
    rw [h]
  · have h := hs.2.2.1
    simp only [step] at h
    rw [h]

theorem rampEnv_mono : Monotone (millis rampEnv.clock) := by
  intro a b hab
  simp only [millis, rampEnv, ULONG_MOD]
  have ha : min (1500 * a) 600000 < 4294967296 := by omega
  have hb : min (1500 * b) 600000 < 4294967296 := by omega
  rw [Nat.mod_eq_of_lt ha, Nat.mod_eq_of_lt hb]
  omega

/-- C8 on a clock advancing 1500 ms per reading, interval 2000 ms: the second
`checkInterval()` after construction moves the timestamp from 0 to 4500. -/
theorem lastTick_monotone_witness :
    (run rampEnv (VarioSentence.new rampEnv 65 [] [] 0) [Op.checkInterval]).self.lastTick = 0 ∧
    (step rampEnv (run rampEnv (VarioSentence.new rampEnv 65 [] [] 0) [Op.checkInterval])
      Op.checkInterval).2.self.lastTick = 4500 ∧
    (step rampEnv (run rampEnv (VarioSentence.new rampEnv 65 [] [] 0) [Op.checkInterval])
      Op.checkInterval).1 = Ret.flag true :=
  ⟨by decide, by decide,
   ((lastTick_monotone rampEnv rampEnv_mono 65 [] [] 0 [Op.checkInterval] Op.checkInterval).2.1
      (by decide)).2⟩

end Vario
namespace Vario

/-- Every clock value compared by a call that returns `true` lies more than the delay
after the timestamp of the state the sequence starts from. -/
theorem fired_gt {α β F : Type} (E : Env α β F) (hmono : Monotone (millis E.clock))
    (ops : List (Op F)) (w : Sys α β) (hw : w.self.lastTick ≤ millis E.clock w.ticks) :
    ∀ x ∈ fired E w ops, E.VARIOMETER_SENTENCE_DELAY < x - w.self.lastTick := by
  induction ops generalizing w with
  | nil => simp [fired]
  | cons op ops ih =>
    have hnext := step_lastTick_le E hmono w hw op
    have hrest := ih _ hnext
    rcases step_cases E w op with ⟨h1, h2, _, _⟩ | ⟨h1, _, h3, h4, _⟩
    · simp only [fired, h1, if_false]
      rw [h2] at hrest
      exact hrest
    · simp only [fired, h1, if_true]
      rw [usub_of_le hw (millis_lt _ _)] at h3
      intro x hx
      rcases List.mem_cons.mp hx with rfl | hx
      · exact h3
      · have hx2 := hrest x hx
        rw [h4] at hx2
        have hle : millis E.clock w.ticks ≤ millis E.clock (w.ticks + 1) :=
          millis_mono_le hmono (Nat.le_succ _)
        omega

theorem fired_pairwise {α β F : Type} (E : Env α β F) (hmono : Monotone (millis E.clock))
    (ops : List (Op F)) (w : Sys α β) (hw : w.self.lastTick ≤ millis E.clock w.ticks) :
    List.Pairwise (fun a b => E.VARIOMETER_SENTENCE_DELAY < b - a) (fired E w ops) := by
  induction ops generalizing w with
  | nil => simp [fired]
  | cons op ops ih =>
    have hnext := step_lastTick_le E hmono w hw op
    have hrest := ih _ hnext
    rcases step_cases E w op with ⟨h1, _, _, _⟩ | ⟨h1, _, _, h4, _⟩
    · simp only [fired, h1, if_false]
      exact hrest
    · simp only [fired, h1, if_true]
      refine List.pairwise_cons.mpr ⟨fun x hx => ?_, hrest⟩
      have hx2 := fired_gt E hmono ops _ hnext x hx
      rw [h4] at hx2
      have hle : millis E.clock w.ticks ≤ millis E.clock (w.ticks + 1) :=
        millis_mono_le hmono (Nat.le_succ _)
      omega

/-- C4: under a non-decreasing clock, for every sequence of operations on a freshly
constructed object, the clock value read at construction followed by the clock values
compared in the `checkInterval()` calls that return true form a list in which every later
entry minus every earlier entry is greater than `VARIOMETER_SENTENCE_DELAY`: two true
results, and construction and the first true result, are more than the interval apart. -/
theorem fired_spacing {α β F : Type} (E : Env α β F) (hmono : Monotone (millis E.clock))
    (type : Int) (lk8 : α) (lxnav : β) (k : Nat) (ops : List (Op F)) :
    List.Pairwise (fun a b => E.VARIOMETER_SENTENCE_DELAY < b - a)
      (millis E.clock k :: fired E (VarioSentence.new E type lk8 lxnav k) ops) :=
  List.pairwise_cons.mpr
    ⟨fired_gt E hmono ops _ (new_lastTick_le E hmono type lk8 lxnav k),
     fired_pairwise E hmono ops _ (new_lastTick_le E hmono type lk8 lxnav k)⟩

/-- C4 on a clock advancing 1500 ms per reading with interval 2000 ms: of five polls the
second and the fourth fire, at 3000 and 7500. -/
theorem fired_spacing_witness :
    fired rampEnv (VarioSentence.new rampEnv 65 [] [] 0)
        [Op.checkInterval, Op.checkInterval, Op.read, Op.checkInterval, Op.checkInterval,
         Op.checkInterval] = [3000, 7500] ∧
    List.Pairwise (fun a b => rampEnv.VARIOMETER_SENTENCE_DELAY < b - a)
      (millis rampEnv.clock 0 :: fired rampEnv (VarioSentence.new rampEnv 65 [] [] 0)
        [Op.checkInterval, Op.checkInterval, Op.read, Op.checkInterval, Op.checkInterval,
         Op.checkInterval]) :=
  ⟨by decide, fired_spacing rampEnv rampEnv_mono 65 [] [] 0 _⟩

/-- C6: in every state reached from an object constructed with the LK8 selector, `begin`
applies the `begin` of `LK8` to the same four values, `available` and `read` return what
`LK8` returns (so `read` returns the value `LK8` answers with when it has nothing
available), and nothing but the state of `LK8` changes, `LxNav` in particular stays as it
is; for every other selector the same holds with `LK8` and `LxNav` exchanged. -/
theorem forwards_to_bound_strategy {α β F : Type} (E : Env α β F) (type : Int) (lk8 : α)
    (lxnav : β) (k : Nat) (ops : List (Op F)) (w : Sys α β)
    (hw : w = run E (VarioSentence.new E type lk8 lxnav k) ops) :
    (type = E.USE_LK8_SENTENCE →
      (∀ height vel temp bat : F, VarioSentence.begin E w height vel temp bat
        = { w with LK8 := E.lk8Class.begin w.LK8 height vel temp bat }) ∧
      VarioSentence.available E w
        = ((E.lk8Class.available w.LK8).1, { w with LK8 := (E.lk8Class.available w.LK8).2 }) ∧
      VarioSentence.read E w
        = ((E.lk8Class.read w.LK8).1, { w with LK8 := (E.lk8Class.read w.LK8).2 }) ∧
      (∀ sentinel : Int, (E.lk8Class.available w.LK8).1 = 0 →
        (E.lk8Class.read w.LK8).1 = sentinel → (VarioSentence.read E w).1 = sentinel) ∧
      (∀ height vel temp bat : F,
        (VarioSentence.begin E w height vel temp bat).LxNav = w.LxNav) ∧
      (VarioSentence.available E w).2.LxNav = w.LxNav ∧
      (VarioSentence.read E w).2.LxNav = w.LxNav) ∧
    (type ≠ E.USE_LK8_SENTENCE →
      (∀ height vel temp bat : F, VarioSentence.begin E w height vel temp bat
        = { w with LxNav := E.lxNavClass.begin w.LxNav height vel temp bat }) ∧
      VarioSentence.available E w
        = ((E.lxNavClass.available w.LxNav).1,
           { w with LxNav := (E.lxNavClass.available w.LxNav).2 }) ∧
      VarioSentence.read E w
        = ((E.lxNavClass.read w.LxNav).1, { w with LxNav := (E.lxNavClass.read w.LxNav).2 }) ∧
      (∀ sentinel : Int, (E.lxNavClass.available w.LxNav).1 = 0 →
        (E.lxNavClass.read w.LxNav).1 = sentinel → (VarioSentence.read E w).1 = sentinel) ∧
      (∀ height vel temp bat : F,
        (VarioSentence.begin E w height vel temp bat).LK8 = w.LK8) ∧
      (VarioSentence.available E w).2.LK8 = w.LK8 ∧
      (VarioSentence.read E w).2.LK8 = w.LK8) := by
  have hb : w.self.varioSentence
      = if type = E.USE_LK8_SENTENCE then Target.LK8 else Target.LxNav := by
    rw [hw]
    exact (run_self E _ ops).2
  refine ⟨fun ht => ?_, fun ht => ?_⟩
  · rw [if_pos ht] at hb
    refine ⟨fun height vel temp bat => begin_LK8 E w height vel temp bat hb, available_LK8 E w hb,
      read_LK8 E w hb, fun sentinel _ hs => ?_, fun height vel temp bat => ?_, ?_, ?_⟩
    · rw [read_LK8 E w hb]
      exact hs
    · rw [begin_LK8 E w height vel temp bat hb]
    · rw [available_LK8 E w hb]
    · rw [read_LK8 E w hb]
  · rw [if_neg ht] at hb
    refine ⟨fun height vel temp bat => begin_LxNav E w height vel temp bat hb,
      available_LxNav E w hb, read_LxNav E w hb, fun sentinel _ hs => ?_,
      fun height vel temp bat => ?_, ?_, ?_⟩
    · rw [read_LxNav E w hb]
      exact hs
    · rw [begin_LxNav E w height vel temp bat hb]
    · rw [available_LxNav E w hb]
    · rw [read_LxNav E w hb]

/-- C6 at the example, with byte queues for the two strategies: an object built with
selector 65 reads from `LK8` (the tag 1 put there by `begin`), one built with selector 66
finds `LxNav` empty and returns its answer `-1`; the other queue stays empty. -/
theorem forwards_to_bound_strategy_witness :
    ((VarioSentence.read exampleEnv
        (run exampleEnv (VarioSentence.new exampleEnv 65 [] [] 0)
          [Op.checkInterval, Op.begin 10 20 30 40])).1 = 1 ∧
      (VarioSentence.read exampleEnv
        (run exampleEnv (VarioSentence.new exampleEnv 65 [] [] 0)
          [Op.checkInterval, Op.begin 10 20 30 40])).2.LxNav = []) ∧
    ((VarioSentence.read exampleEnv
        (run exampleEnv (VarioSentence.new exampleEnv 66 [] [] 0) [Op.checkInterval])).1 = -1 ∧
      (VarioSentence.read exampleEnv
        (run exampleEnv (VarioSentence.new exampleEnv 66 [] [] 0) [Op.checkInterval])).2.LK8
          = []) :=
  ⟨⟨(congrArg Prod.fst
        ((forwards_to_bound_strategy exampleEnv 65 [] [] 0
          [Op.checkInterval, Op.begin 10 20 30 40] _ rfl).1 (by decide)).2.2.1).trans
        (by decide),
     (((forwards_to_bound_strategy exampleEnv 65 [] [] 0
          [Op.checkInterval, Op.begin 10 20 30 40] _ rfl).1 (by decide)).2.2.2.2.2.2).trans
        (by decide)⟩,
   ⟨((forwards_to_bound_strategy exampleEnv 66 [] [] 0 [Op.checkInterval] _ rfl).2
        (by decide)).2.2.2.1 (-1) (by decide) (by decide),
     (((forwards_to_bound_strategy exampleEnv 66 [] [] 0 [Op.checkInterval] _ rfl).2
        (by decide)).2.2.2.2.2.2).trans (by decide)⟩⟩

end Vario
namespace Vario

/-! ## `EEPROMDriver`: round trip -/

theorem writeAll_dev_loc (xs : List Nat) (bus : TwoWire) :
    (bus.writeAll xs).dev = bus.dev ∧ (bus.writeAll xs).loc = bus.loc + xs.length := by
  induction xs generalizing bus with
  | nil => exact ⟨rfl, rfl⟩
  | cons b bs ih =>
    have h := ih (bus.write b)
    simp only [TwoWire.writeAll, List.length_cons]
    refine ⟨h.1, ?_⟩
    rw [h.2]
    simp only [TwoWire.write]
    omega

/-- Locations before the addressed one are not touched by the bytes of a transaction. -/
theorem writeAll_mem_below (xs : List Nat) (bus : TwoWire) (a : Nat) (ha : a < bus.loc) :
    (bus.writeAll xs).mem bus.dev a = bus.mem bus.dev a := by
  induction xs generalizing bus with
  | nil => rfl
  | cons b bs ih =>
    have h := ih (bus.write b) (by simp only [TwoWire.write]; omega)
    simp only [TwoWire.writeAll]
    have hd : (bus.write b).dev = bus.dev := rfl
    rw [hd] at h
    rw [h]
    simp only [TwoWire.write]
    rw [if_neg]
    omega

/-- The `i`-th byte of a transaction is stored `i` locations after the addressed one. -/
theorem writeAll_mem (xs : List Nat) (bus : TwoWire) (i : Nat) (hi : i < xs.length) :
    (bus.writeAll xs).mem bus.dev (bus.loc + i) = xs[i] % 256 := by
  induction xs generalizing bus i with
  | nil => simp at hi
  | cons b bs ih =>
    simp only [TwoWire.writeAll]
    have hd : (bus.write b).dev = bus.dev := rfl
    have hl : (bus.write b).loc = bus.loc + 1 := rfl
    cases i with
    | zero =>
      have h := writeAll_mem_below bs (bus.write b) bus.loc (by rw [hl]; omega)
      rw [hd] at h
      simp only [Nat.add_zero, List.getElem_cons_zero]
      rw [h]
      simp [TwoWire.write]
    | succ j =>
      have hj : j < bs.length := by simpa using hi
      have h := ih (bus.write b) j hj
      rw [hd, hl] at h
      simp only [List.getElem_cons_succ]
      rw [← h]
      congr 1
      omega

/-- C9: on the simulated bus, `writeByte` followed by `readByte` with the same device and
memory address returns the byte written, and `writeBuffer` of `len` bytes (`len` at least
0, the buffer holding that many bytes) followed by `readBuffer` of the same length at the
same address fills the first `len` places of the receiving buffer with the bytes written,
in order. -/
theorem eeprom_round_trip (bus : TwoWire) (devAddr memAddr : Nat) :
    (∀ value : Nat, value < 256 →
      (EEPROMDriver.readByte (EEPROMDriver.writeByte bus devAddr memAddr value)
        devAddr memAddr).1 = value) ∧
    (∀ (data buf : List Nat) (len : Int), 0 ≤ len → len.toNat ≤ data.length →
      (∀ b ∈ data, b < 256) →
      (EEPROMDriver.readBuffer (EEPROMDriver.writeBuffer bus devAddr memAddr data len)
        devAddr memAddr buf len).1 = data.take len.toNat ++ buf.drop len.toNat) := by
  refine ⟨fun value hv => ?_, fun data buf len _ hlen hbytes => ?_⟩
  · have hr : List.range 1 = [0] := rfl
    simp [EEPROMDriver.readByte, EEPROMDriver.writeByte, TwoWire.beginTransmission,
      TwoWire.write, TwoWire.endTransmission, TwoWire.requestFrom, Nat.mod_eq_of_lt hv, hr]
  · simp only [EEPROMDriver.readBuffer, EEPROMDriver.writeBuffer, TwoWire.endTransmission,
      TwoWire.requestFrom]
    congr 1
    apply List.ext_getElem
    · simp [hlen]
    · intro i h1 h2
      have hi : i < (data.take len.toNat).length := h2
      have hw := writeAll_mem (data.take len.toNat) (bus.beginTransmission devAddr memAddr) i hi
      simp only [List.getElem_map, List.getElem_range]
      simp only [TwoWire.beginTransmission] at hw ⊢
      rw [hw]
      exact Nat.mod_eq_of_lt (hbytes _ (List.mem_of_mem_take (List.getElem_mem _)))

/-- C9 on a blank bus: device 80, address 256; one byte 171, then the three bytes
1, 2, 3 read back into a buffer of three places. -/
theorem eeprom_round_trip_witness :
    (EEPROMDriver.readByte (EEPROMDriver.writeByte blankBus 80 256 171) 80 256).1 = 171 ∧
    (EEPROMDriver.readBuffer (EEPROMDriver.writeBuffer blankBus 80 256 [1, 2, 3] 3)
      80 256 [0, 0, 0] 3).1 = [1, 2, 3] :=
  ⟨(eeprom_round_trip blankBus 80 256).1 171 (by decide),
   ((eeprom_round_trip blankBus 80 256).2 [1, 2, 3] [0, 0, 0] 3 (by decide) (by decide)
      (by decide)).trans (by decide)⟩

end Vario
